import Mathlib

/-!
Verification development for the yuzu plugin manager
(`src/core/tools/plugin_manager.cpp`, final revision, together with its
header `src/core/tools/plugin_manager.h`).

The C++ is embedded shallowly: the pure decision logic of each function is
translated to an executable Lean function over explicit state records, and
the cooperative scheduler (vsync driver, pacing driver, worker rendezvous,
unload pipeline) is embedded as a sequential transition system whose worker
park points are driven by an oracle.  Ghost fields (counters, event logs)
record what the code did so that temporal properties can be stated.
-/

namespace YuzuPlugin

/-! ## Dynamic-library facade and `LoadPlugin`

A shared library is described by what the loader can observe of it:
whether `dlopen`/`LoadLibraryEx` succeeds, the platform error string when
it does not, whether `get_plugin_interface_version` is exported (and, when
it is, the value it returns), and whether the `start` / `on_main_loop` /
`on_close` entry points are exported. -/

structure SharedLib where
  openOk : Bool
  dllError : String
  versionSymbol : Option Nat
  hasStart : Bool
  hasMainLoop : Bool
  hasOnClose : Bool
deriving Repr, DecidableEq

/-- Host interface-version constant, `#define PLUGIN_INTERFACE_VERSION 0`
in `plugin_definitions.h`. -/
def PLUGIN_INTERFACE_VERSION : Nat := 0

/-- Per-plugin record as created by `LoadPlugin` (the fields of
`PluginManager::Plugin` that the load path touches).  `threadSpawned`
mirrors `pluginThread`: it is `false` at creation, because the worker
thread is only spawned lazily inside `ProcessScript`. -/
structure PluginRec where
  path : String
  plugin_name : String
  mainLoopSet : Bool
  setupCalled : Bool
  threadSpawned : Bool
deriving Repr, DecidableEq

/-- The manager state that `LoadPlugin` reads and writes: the owning
plugin list, the path key-set `loaded_plugins`, and the last-error
string. -/
structure LoadState where
  plugins : List PluginRec
  loaded_plugins : List String
  last_error : String
deriving Repr, DecidableEq

/-- Error string built on the interface-version mismatch path
(plugin_manager.cpp:238-240). -/
def versionMismatchMsg (v : Nat) : String :=
  "Plugin version " ++ toString v ++
    " is not compatible with Yuzu plugin version " ++
    toString PLUGIN_INTERFACE_VERSION

/-- Error string built when `start` or `on_main_loop` is not exported
(plugin_manager.cpp:251-253). -/
def missingEntrypointsMsg : String :=
  "The plugin needs the functions \x27start\x27 and \x27on_main_loop\x27 exported in order to run"

/-- Embedding of `PluginManager::LoadPlugin` (plugin_manager.cpp:212-270).
The result is `none` when the source exhibits undefined behavior: when
`get_plugin_interface_version` is not exported, `GetDllFunction` returns
null and the source immediately calls `pluginVersion()` through the null
pointer (line 237) without a null check.  Every defined path returns
`some (returnValue, newState)`. -/
def LoadPlugin (s : LoadState) (lib : SharedLib) (path name : String) :
    Option (Bool × LoadState) :=
  if s.loaded_plugins.contains path then
    -- `if (!loaded_plugins.count(path))` fails: body skipped, `return true`
    some (true, s)
  else if !lib.openOk then
    some (false, { s with last_error := "DLL error " ++ lib.dllError })
  else
    match lib.versionSymbol with
    | none => none
    | some v =>
      if v ≠ PLUGIN_INTERFACE_VERSION then
        some (false, { s with last_error := versionMismatchMsg v })
      else if !(lib.hasStart && lib.hasMainLoop) then
        some (false, { s with last_error := missingEntrypointsMsg })
      else
        some (true, { s with
          loaded_plugins := path :: s.loaded_plugins,
          plugins := s.plugins ++
            [{ path := path, plugin_name := name, mainLoopSet := true,
               setupCalled := true, threadSpawned := false }] })

/-! ## `SetActive` and the pacing thread -/

/-- State that `PluginManager::SetActive` touches: the atomic `active`
flag and the lazily created pacing thread `plugin_main_loop_thread`.
`spawnCount` is a ghost counter of thread creations. -/
structure PacingState where
  active : Bool
  threadSpawned : Bool
  spawnCount : Nat
deriving Repr, DecidableEq

/-- Embedding of `PluginManager::SetActive` (plugin_manager.cpp:74-86).
The source reads `if (active.exchange(active_))`, so the spawn branch is
taken exactly when the PREVIOUS value of the flag was true; inside it, the
thread is created only if it does not exist yet. -/
def SetActive (s : PacingState) (b : Bool) : PacingState :=
  let old := s.active
  let s1 := { s with active := b }
  if old then
    if !s1.threadSpawned then
      { s1 with threadSpawned := true, spawnCount := s1.spawnCount + 1 }
    else s1
  else s1

/-! ## The frame-advance callback's flag stores -/

/-- Cooperative rendezvous flags of one plugin record, as read and
written by `emu_frameadvance` and `PluginThreadExecuter`. -/
structure PluginFlags where
  ready : Bool
  processedMainLoop : Bool
  encounteredVsync : Bool
deriving Repr, DecidableEq

/-- Embedding of the two consecutive stores at the top of the
`emu_frameadvance` callback (plugin_manager.cpp:347-348):
`self->encounteredVsync = true; self->encounteredVsync = false;`.
These are the only flag writes the callback performs before it signals
the condition variable and parks waiting for `ready`. -/
def emu_frameadvance_stores (p : PluginFlags) : PluginFlags :=
  let p1 := { p with encounteredVsync := true }
  { p1 with encounteredVsync := false }

/-- Resumption of the worker once the scheduler sets `ready`: the wait
predicate is `ready`, after which the callback clears it
(plugin_manager.cpp:353-354). -/
def emu_frameadvance_resume (p : PluginFlags) : PluginFlags :=
  { p with ready := false }

/-- Exactly one of two booleans is true. -/
def exactlyOne (a b : Bool) : Bool := a != b

/-! ## Guest-region host APIs -/

/-- Region values exposed by the current process's page table, as read
by the `emu_get*` callbacks. -/
structure PageTableRegions where
  heapRegionStart : Nat
  heapRegionSize : Nat
  addressSpaceStart : Nat
  addressSpaceSize : Nat
  stackRegionStart : Nat
  stackRegionSize : Nat
deriving Repr, DecidableEq

/-- Embedding of `emu_getheapstart` (plugin_manager.cpp:415-421):
`system->CurrentProcess()` is `none` when no process is running. -/
def emu_getheapstart (proc : Option PageTableRegions) : Nat :=
  match proc with
  | some pt => pt.heapRegionStart
  | none => 0

/-- Embedding of `emu_getheapsize` (plugin_manager.cpp:423-429). -/
def emu_getheapsize (proc : Option PageTableRegions) : Nat :=
  match proc with
  | some pt => pt.heapRegionSize
  | none => 0

/-- Embedding of `emu_getmainstart` (plugin_manager.cpp:431-437).  In the
source the process branch reads
`process->PageTable().GetAddressSpaceStart();` WITHOUT a `return`: the
value is computed and discarded, and the function falls through to
`return 0`. -/
def emu_getmainstart (proc : Option PageTableRegions) : Nat :=
  match proc with
  | some pt =>
    let _ := pt.addressSpaceStart
    0
  | none => 0

/-- Embedding of `emu_getmainsize` (plugin_manager.cpp:439-445); same
missing `return` as `emu_getmainstart`. -/
def emu_getmainsize (proc : Option PageTableRegions) : Nat :=
  match proc with
  | some pt =>
    let _ := pt.addressSpaceSize
    0
  | none => 0

/-- Embedding of `emu_getstackstart` (plugin_manager.cpp:447-453). -/
def emu_getstackstart (proc : Option PageTableRegions) : Nat :=
  match proc with
  | some pt => pt.stackRegionStart
  | none => 0

/-- Embedding of `emu_getstacksize` (plugin_manager.cpp:455-461). -/
def emu_getstacksize (proc : Option PageTableRegions) : Nat :=
  match proc with
  | some pt => pt.stackRegionSize
  | none => 0

/-! ## Guest-memory byte-range APIs

`memory_readbyterange` / `memory_writebyterange`
(plugin_manager.cpp:489-511) test `system->IsPoweredOn()` and nothing
else: when powered on they call `ReadBlock`/`WriteBlock` unconditionally
and return true, otherwise they return false without touching memory.
The second component of the result records whether the block access was
performed. -/

def memory_readbyterange (poweredOn : Bool) (address length : Nat) :
    Bool × Bool :=
  if poweredOn then (true, true) else (false, false)

def memory_writebyterange (poweredOn : Bool) (address length : Nat) :
    Bool × Bool :=
  if poweredOn then (true, true) else (false, false)

/-! ## Overlay surface -/

inductive DockState
| neither
| docked
| undocked
deriving Repr, DecidableEq

/-- Docked display resolution (Service::VI::DisplayResolution). -/
def DockedWidth : Nat := 1920
def DockedHeight : Nat := 1080
/-- Undocked display resolution (Service::VI::DisplayResolution). -/
def UndockedWidth : Nat := 1280
def UndockedHeight : Nat := 720

/-- Painter operation applied to the overlay canvas. -/
inductive DrawOp
| clear
| pixel (x y red green blue alpha : Nat)
| image (dx dy : Int) (path : String) (sx sy sw sh : Int)
deriving Repr, DecidableEq

/-- Overlay state owned by the manager: the recorded dock state, the
canvas (its size, a generation counter bumped whenever pixmap and painter
are recreated, and the list of painter operations applied to the current
canvas), plus a ghost count of `render_callback` invocations. -/
structure OverlayState where
  lastDockedState : DockState
  canvasWidth : Nat
  canvasHeight : Nat
  canvasGen : Nat
  ops : List DrawOp
  renderCount : Nat
deriving Repr, DecidableEq

/-- Embedding of `RegenerateGuiRendererIfNeeded`
(plugin_manager.cpp:272-292): on first use or on a dock-state change the
pixmap and painter are recreated at the corresponding resolution and the
canvas is cleared (`guiPixmap->fill(0)`). -/
def RegenerateGuiRendererIfNeeded (useDockedMode : Bool)
    (o : OverlayState) : OverlayState :=
  let thisDockedState :=
    if useDockedMode then DockState.docked else DockState.undocked
  if o.lastDockedState = DockState.neither ∨
      o.lastDockedState ≠ thisDockedState then
    { o with
      lastDockedState := thisDockedState,
      canvasWidth := if useDockedMode then DockedWidth else UndockedWidth,
      canvasHeight := if useDockedMode then DockedHeight else UndockedHeight,
      canvasGen := o.canvasGen + 1,
      ops := [] }
  else o

/-- Embedding of the `gui_clearscreen` callback
(plugin_manager.cpp:1229-1237): guarded by `IsPoweredOn`. -/
def gui_clearscreen (poweredOn useDockedMode : Bool)
    (o : OverlayState) : OverlayState :=
  if poweredOn then
    let o1 := RegenerateGuiRendererIfNeeded useDockedMode o
    { o1 with ops := o1.ops ++ [DrawOp.clear] }
  else o

/-- Embedding of the `gui_render` callback (plugin_manager.cpp:1239-1245):
guarded by `IsPoweredOn`; `RenderGui` invokes `render_callback` when the
slot is set. -/
def gui_render (poweredOn useDockedMode hasRenderCallback : Bool)
    (o : OverlayState) : OverlayState :=
  if poweredOn then
    let o1 := RegenerateGuiRendererIfNeeded useDockedMode o
    if hasRenderCallback then { o1 with renderCount := o1.renderCount + 1 }
    else o1
  else o

/-- Embedding of the `gui_drawpixel` callback
(plugin_manager.cpp:1247-1257): guarded by `IsPoweredOn`. -/
def gui_drawpixel (poweredOn useDockedMode : Bool) (o : OverlayState)
    (x y red green blue alpha : Nat) : OverlayState :=
  if poweredOn then
    let o1 := RegenerateGuiRendererIfNeeded useDockedMode o
    { o1 with ops := o1.ops ++ [DrawOp.pixel x y red green blue alpha] }
  else o

/-- Embedding of the `gui_drawimage` callback
(plugin_manager.cpp:1271-1281): guarded by `IsPoweredOn`. -/
def gui_drawimage (poweredOn useDockedMode : Bool) (o : OverlayState)
    (dx dy : Int) (path : String) (sx sy sw sh : Int) : OverlayState :=
  if poweredOn then
    let o1 := RegenerateGuiRendererIfNeeded useDockedMode o
    { o1 with ops := o1.ops ++ [DrawOp.image dx dy path sx sy sw sh] }
  else o

/-! ## Scheduler core: cooperative handshake and unload pipeline

The three-thread handshake is embedded as a sequential transition system.
Both driver entry points (`ProcessScriptFromVsync`, invoked from the
emulator's vsync event, and `ProcessScriptFromMainLoop`, invoked from the
pacing thread) run under `plugins_mutex`, and each `ProcessScript` pass
hands the baton to the worker and blocks until it parks again, so a
driver invocation is a sequential function of the manager state once the
worker's park points are supplied by an oracle.  A `Park` oracle value
gives the worker's behavior for one pass: either its `on_main_loop`
returns (`mainLoopDone`), or it calls `emu_frameadvance`; in the latter
case the callback stores true and then immediately false into
`encounteredVsync` (plugin_manager.cpp:347-348), so the value the
scheduler's racing read observes is itself an oracle boolean
(`vsyncPark observed`).  Executions in which the scheduler's wait never
returns are modelled as the pass completing without an enqueue, which
only adds behaviors and is sound for the safety properties proved
below. -/

inductive Park
| mainLoopDone
| vsyncPark (observed : Bool)
deriving Repr, DecidableEq

/-- Scheduler-side fields of one plugin record used by the drivers and
the unload pipeline. -/
structure PluginT where
  pid : Nat
  path : String
  processedMainLoop : Bool
  encounteredVsync : Bool
  hasStopped : Bool
deriving Repr, DecidableEq

/-- Which scheduler entry point performed a close: the vsync driver or
the pacing (main-loop) driver.  The worker thread has no constructor
here because `HandlePluginClosings` is reachable only from these two
entry points. -/
inductive SchedDriver
| vsync
| pacing
deriving Repr, DecidableEq

/-- Ghost record of one `on_close` invocation performed by
`HandlePluginClosings`: which record, from which driver, and what the
scheduler observed when it queued the record in `ProcessScript`. -/
structure CloseEvent where
  pid : Nat
  driver : SchedDriver
  observedMainLoop : Bool
  pathWasLoaded : Bool
deriving Repr, DecidableEq

/-- Entry of `temp_plugins_to_remove`, with the ghost observations taken
at enqueue time. -/
structure TempEntry where
  pid : Nat
  observedMainLoop : Bool
  pathWasLoaded : Bool
deriving Repr, DecidableEq

/-- Manager state for the scheduler model: `active` flag, owning plugin
list, the `loaded_plugins` key-set, the pending-removal list
`temp_plugins_to_remove`, the ghost log of `on_close` invocations, and a
fresh-id counter used to identify records across their lifetime. -/
structure MgrState where
  active : Bool
  plugins : List PluginT
  loaded : List String
  temp : List TempEntry
  closeLog : List CloseEvent
  nextId : Nat

/-- Worker behavior for one baton pass, from `PluginThreadExecuter`
(plugin_manager.cpp:166-189): on wake with `hasStopped` set, the worker
stores `processedMainLoop = true` and exits; otherwise it runs the main
loop, which parks either inside `emu_frameadvance` (the racy
`encounteredVsync` double store, observed value `v`) or after the loop
returns (`processedMainLoop = true; encounteredVsync = false`). -/
def workerPass (p : PluginT) (o : Park) : PluginT :=
  if p.hasStopped then { p with processedMainLoop := true }
  else
    match o with
    | Park.mainLoopDone =>
      { p with processedMainLoop := true, encounteredVsync := false }
    | Park.vsyncPark v => { p with encounteredVsync := v }

/-- Replace the record with the given id (record mutation through the
shared pointer). -/
def updateRec (l : List PluginT) (pid : Nat) (r : PluginT) : List PluginT :=
  l.map fun q => if q.pid == pid then r else q

/-- Embedding of `PluginManager::ProcessScript`
(plugin_manager.cpp:92-120): wake the worker, wait for it to park, and —
when the observed state is a main-loop boundary and the record's path
has been erased from `loaded_plugins` — set `hasStopped` and queue the
record on `temp_plugins_to_remove`. -/
def processScript (s : MgrState) (pid : Nat) (o : Park) : MgrState :=
  match s.plugins.find? (fun q => q.pid == pid) with
  | none => s
  | some p =>
    let p1 := workerPass p o
    if p1.processedMainLoop && !(s.loaded.contains p1.path) then
      let p2 := { p1 with hasStopped := true }
      { s with
        plugins := updateRec s.plugins pid p2,
        temp := s.temp ++
          [⟨pid, p1.processedMainLoop, s.loaded.contains p1.path⟩] }
    else { s with plugins := updateRec s.plugins pid p1 }

/-- Inner loop of the vsync driver (plugin_manager.cpp:131-139): repeat
single passes until the worker parks at a vsync boundary again or the
stop flag is set.  The oracle list bounds the observed iterations. -/
def vsyncInner (pid : Nat) : MgrState → List Park → MgrState
  | s, [] => s
  | s, o :: rest =>
    let s1 := processScript s pid o
    match s1.plugins.find? (fun q => q.pid == pid) with
    | none => s1
    | some p =>
      if p.encounteredVsync || p.hasStopped then s1
      else vsyncInner pid s1 rest

/-- Embedding of `PluginManager::HandlePluginClosings`
(plugin_manager.cpp:306-333): for each queued record, invoke `on_close`
(logged as a `CloseEvent` tagged with the invoking driver), join the
worker, close the library and erase the record from the plugins list;
finally clear the queue. -/
def HandlePluginClosings (s : MgrState) (d : SchedDriver) : MgrState :=
  { s with
    closeLog := s.closeLog ++
      s.temp.map (fun e => ⟨e.pid, d, e.observedMainLoop, e.pathWasLoaded⟩),
    plugins :=
      s.plugins.filter (fun p => !(s.temp.any (fun e => e.pid == p.pid))),
    temp := [] }

/-- Per-plugin body of the vsync driver's loop
(plugin_manager.cpp:126-141): plugins parked at a vsync boundary have
the flag cleared and are driven through `vsyncInner`. -/
def vsyncBody (oracle : Nat → List Park) (st : MgrState) (pid : Nat) :
    MgrState :=
  match st.plugins.find? (fun q => q.pid == pid) with
  | none => st
  | some p =>
    if p.encounteredVsync then
      vsyncInner pid
        { st with
          plugins := updateRec st.plugins pid
            { p with encounteredVsync := false } }
        (oracle pid)
    else st

/-- Per-plugin body of the pacing driver's loop
(plugin_manager.cpp:151-159): plugins parked at a main-loop boundary
have the flag cleared and receive exactly one pass. -/
def paceBody (oracle : Nat → Park) (st : MgrState) (pid : Nat) :
    MgrState :=
  match st.plugins.find? (fun q => q.pid == pid) with
  | none => st
  | some p =>
    if p.processedMainLoop then
      processScript
        { st with
          plugins := updateRec st.plugins pid
            { p with processedMainLoop := false } }
        pid (oracle pid)
    else st

/-- Embedding of `PluginManager::ProcessScriptFromVsync`
(plugin_manager.cpp:122-145): active-gated sweep over the plugin list,
then the pending-removal drain. -/
def ProcessScriptFromVsync (s : MgrState) (oracle : Nat → List Park) :
    MgrState :=
  if s.active then
    HandlePluginClosings
      ((s.plugins.map (fun p => p.pid)).foldl (vsyncBody oracle) s)
      SchedDriver.vsync
  else s

/-- Embedding of `PluginManager::ProcessScriptFromMainLoop`
(plugin_manager.cpp:147-164): active-gated sweep over the plugin list,
then the pending-removal drain. -/
def ProcessScriptFromMainLoop (s : MgrState) (oracle : Nat → Park) :
    MgrState :=
  if s.active then
    HandlePluginClosings
      ((s.plugins.map (fun p => p.pid)).foldl (paceBody oracle) s)
      SchedDriver.pacing
  else s

/-- Successful branch of `LoadPlugin` in the scheduler model: the path
is inserted into the key-set and a fresh record is appended
(`processedMainLoop` initialized to true, per the record declaration in
plugin_manager.h).  Failing branches change only `last_error` (see
`LoadPlugin` above) and so leave this state unchanged; the
missing-version-symbol branch is undefined behavior in the source and
is modelled as a stutter here. -/
def loadPluginT (s : MgrState) (lib : SharedLib) (path name : String) :
    MgrState :=
  if s.loaded.contains path then s
  else if !lib.openOk then s
  else
    match lib.versionSymbol with
    | none => s
    | some v =>
      if v ≠ PLUGIN_INTERFACE_VERSION then s
      else if !(lib.hasStart && lib.hasMainLoop) then s
      else
        { s with
          loaded := path :: s.loaded,
          plugins := s.plugins ++
            [{ pid := s.nextId, path := path, processedMainLoop := true,
               encounteredVsync := false, hasStopped := false }],
          nextId := s.nextId + 1 }

/-- Embedding of `PluginManager::RemovePlugin` (plugin_manager.h): erase
the path from the key-set; teardown is completed by the scheduler. -/
def removePluginT (s : MgrState) (path : String) : MgrState :=
  if s.loaded.contains path then { s with loaded := s.loaded.erase path }
  else s

/-- Flag effect of `SetActive` in the scheduler model (the pacing-thread
spawn is modelled separately by `SetActive` on `PacingState`). -/
def setActiveT (s : MgrState) (b : Bool) : MgrState := { s with active := b }

/-- External stimuli of the manager: UI-driven load/remove/activate and
the two scheduler entry points with their park oracles. -/
inductive Cmd
| load (lib : SharedLib) (path name : String)
| remove (path : String)
| setActive (b : Bool)
| vsyncSweep (oracle : Nat → List Park)
| paceSweep (oracle : Nat → Park)

def step (s : MgrState) : Cmd → MgrState
  | Cmd.load lib path name => loadPluginT s lib path name
  | Cmd.remove path => removePluginT s path
  | Cmd.setActive b => setActiveT s b
  | Cmd.vsyncSweep oracle => ProcessScriptFromVsync s oracle
  | Cmd.paceSweep oracle => ProcessScriptFromMainLoop s oracle

def run (s : MgrState) (cs : List Cmd) : MgrState := cs.foldl step s

/-- Freshly constructed manager: no plugins, empty key-set, empty
pending-removal list, inactive. -/
def initState : MgrState :=
  { active := false, plugins := [], loaded := [], temp := [],
    closeLog := [], nextId := 0 }

/-- Effect summary of a scheduler action performed on behalf of one
plugin record `pid`: every manager field except `temp` and the plugin
flag fields is untouched, the pid multiset of the plugin list is
untouched, and the pending-removal queue either is unchanged or gains
exactly one entry — for `pid`, recorded with a true main-loop
observation and an absent path, and only if `pid` is a live record. -/
def BodyEffects (s s2 : MgrState) (pid : Nat) : Prop :=
  s2.plugins.map (fun p => p.pid) = s.plugins.map (fun p => p.pid) ∧
  s2.closeLog = s.closeLog ∧
  s2.loaded = s.loaded ∧
  s2.nextId = s.nextId ∧
  s2.active = s.active ∧
  (s2.temp = s.temp ∨
    (s2.temp = s.temp ++ [⟨pid, true, false⟩] ∧
      pid ∈ s.plugins.map (fun p => p.pid)))

/-- Invariant of the manager state between commands: record ids are
distinct and below the fresh-id counter, the pending-removal queue is
drained, and the close log contains distinct record ids, none of which
is still a live record, each logged with a true main-loop observation
and an absent path. -/
def Inv (s : MgrState) : Prop :=
  (s.plugins.map (fun p => p.pid)).Nodup ∧
  s.temp = [] ∧
  (s.closeLog.map (fun e => e.pid)).Nodup ∧
  (∀ e ∈ s.closeLog, e.observedMainLoop = true ∧ e.pathWasLoaded = false) ∧
  (∀ x ∈ s.plugins.map (fun p => p.pid), x < s.nextId) ∧
  (∀ x ∈ s.closeLog.map (fun e => e.pid), x < s.nextId) ∧
  (∀ x ∈ s.closeLog.map (fun e => e.pid),
    x ∉ s.plugins.map (fun p => p.pid))

/-! ## Theorems -/

theorem workerPass_pid (p : PluginT) (o : Park) :
    (workerPass p o).pid = p.pid := by
  cases hp : p.hasStopped <;> cases o <;> simp [workerPass, hp]

theorem find?_pid (l : List PluginT) (pid : Nat) (p : PluginT)
    (h : l.find? (fun q => q.pid == pid) = some p) : p.pid = pid := by
  have h1 := List.find?_some h
  simpa using h1

theorem map_pid_updateRec (l : List PluginT) (pid : Nat) (r : PluginT)
    (h : r.pid = pid) :
    (updateRec l pid r).map (fun p => p.pid) = l.map (fun p => p.pid) := by
  unfold updateRec
  rw [List.map_map]
  apply List.map_congr_left
  intro q _
  by_cases hq : (q.pid == pid) = true
  · simp only [Function.comp_apply]
    rw [if_pos hq, h]
    exact (eq_of_beq hq).symm
  · simp only [Function.comp_apply]
    rw [if_neg hq]

theorem find?_updateRec (l : List PluginT) (pid : Nat) (r : PluginT)
    (h : r.pid = pid) :
    (updateRec l pid r).find? (fun q => q.pid == pid) =
      (l.find? (fun q => q.pid == pid)).map (fun _ => r) := by
  induction l with
  | nil => rfl
  | cons q t ih =>
    by_cases hq : (q.pid == pid) = true
    · have hu : updateRec (q :: t) pid r = r :: updateRec t pid r := by
        unfold updateRec
        simp only [List.map_cons]
        rw [if_pos hq]
      have hr : ((fun q => q.pid == pid) r) = true := by simp [h]
      rw [hu, List.find?_cons_of_pos (p := fun (q : PluginT) => q.pid == pid) _ hr,
        List.find?_cons_of_pos (p := fun (q : PluginT) => q.pid == pid) _ hq]
      rfl
    · have hu : updateRec (q :: t) pid r = q :: updateRec t pid r := by
        unfold updateRec
        simp only [List.map_cons]
        rw [if_neg hq]
      rw [hu, List.find?_cons_of_neg (p := fun (q : PluginT) => q.pid == pid) _ hq,
        List.find?_cons_of_neg (p := fun (q : PluginT) => q.pid == pid) _ hq]
      exact ih

/-- C1: the spec's parked-state exclusivity invariant ("when the worker
is parked, exactly one of `processed_main_loop` or `encountered_vsync`
is true") fails on the code at the frame-advance park point: starting a
pass from the pacing driver (which has just cleared
`processedMainLoop`), the `emu_frameadvance` callback stores true and
then immediately false into `encounteredVsync`, so after the worker
signals and parks BOTH flags are false — neither, not exactly one. -/
theorem frameadvance_parked_flags_neither :
    (emu_frameadvance_stores ⟨false, false, false⟩).processedMainLoop = false ∧
    (emu_frameadvance_stores ⟨false, false, false⟩).encounteredVsync = false ∧
    exactlyOne (emu_frameadvance_stores ⟨false, false, false⟩).processedMainLoop
      (emu_frameadvance_stores ⟨false, false, false⟩).encounteredVsync = false := by
  decide

/-- C2: the claim that the frame-advance callback sets
`encounteredVsync` to true and that it REMAINS true while the worker is
parked fails on the code: the callback's second store
(plugin_manager.cpp:348) overwrites it, so whatever the flags were on
entry, the worker parks with `encounteredVsync = false`. -/
theorem frameadvance_encounteredVsync_cleared :
    ∀ p : PluginFlags, (emu_frameadvance_stores p).encounteredVsync = false := by
  intro p
  rfl

/-- C4: `SetActive` sets the flag, but the pacing thread is NOT spawned
on the inactive-to-active transition: the source tests
`if (active.exchange(active_))`, i.e. the PREVIOUS value.  On a fresh
inactive manager, `SetActive true` (the 0→1 transition) spawns nothing,
while a subsequent call made with the flag already true — even
`SetActive false` — spawns the thread. -/
theorem setActive_spawn_predicate_inverted :
    SetActive ⟨false, false, 0⟩ true = ⟨true, false, 0⟩ ∧
    SetActive ⟨true, false, 0⟩ false = ⟨false, true, 1⟩ := by
  decide

/-- C5: `LoadPlugin` handles a wrong interface-version value, but a
library whose `get_plugin_interface_version` symbol is MISSING is not
rejected with an error: the source calls `pluginVersion()` through the
null pointer returned by `GetDllFunction` (plugin_manager.cpp:233-237),
which is undefined behavior (modelled as `none`), not a recorded error
and a false return. -/
theorem loadPlugin_missing_version_symbol_crashes :
    LoadPlugin { plugins := [], loaded_plugins := [], last_error := "" }
      { openOk := true, dllError := "", versionSymbol := none,
        hasStart := true, hasMainLoop := true, hasOnClose := false }
      "plugin_a.dll" "plugin a" = none := rfl

/-- C7: with a running process, the heap and stack region APIs return
the page-table values, but `emu_getmainstart` and `emu_getmainsize`
compute `GetAddressSpaceStart()`/`GetAddressSpaceSize()` WITHOUT a
`return` (plugin_manager.cpp:431-445) and fall through to `return 0`,
so they return 0 even when the process exists (here with address-space
start 42 and size 43); without a process all six return the sentinel
0. -/
theorem guest_region_apis_eval :
    emu_getheapstart (some ⟨1, 2, 42, 43, 5, 6⟩) = 1 ∧
    emu_getheapsize (some ⟨1, 2, 42, 43, 5, 6⟩) = 2 ∧
    emu_getstackstart (some ⟨1, 2, 42, 43, 5, 6⟩) = 5 ∧
    emu_getstacksize (some ⟨1, 2, 42, 43, 5, 6⟩) = 6 ∧
    emu_getmainstart (some ⟨1, 2, 42, 43, 5, 6⟩) = 0 ∧
    emu_getmainsize (some ⟨1, 2, 42, 43, 5, 6⟩) = 0 ∧
    emu_getheapstart none = 0 ∧ emu_getheapsize none = 0 ∧
    emu_getmainstart none = 0 ∧ emu_getmainsize none = 0 ∧
    emu_getstackstart none = 0 ∧ emu_getstacksize none = 0 := by
  decide

/-- C8 counterexample: the claim "the byte-range write API returns false
when called against an invalid address" is false on the code: the
dispatcher tests only `IsPoweredOn`, so on a powered-on system it
returns true for EVERY address — in particular under a validity notion
for which no address is valid. -/
theorem memory_byterange_validity_cex :
    ¬ (∀ (validRange : Nat → Nat → Bool) (address length : Nat),
        validRange address length = false →
        (memory_writebyterange true address length).1 = false) := by
  intro h
  have h0 := h (fun _ _ => false) 0 1 rfl
  simp [memory_writebyterange] at h0

/-- C8 amended: the byte-range read and write APIs succeed or fail on
the powered-on test alone — they return false and perform no guest
memory access exactly when the guest system is not powered on, and when
it is powered on they perform the block access and return true
regardless of the address. -/
theorem memory_byterange_poweredOn_spec :
    ∀ (poweredOn : Bool) (address length : Nat),
      memory_readbyterange poweredOn address length = (poweredOn, poweredOn) ∧
      memory_writebyterange poweredOn address length = (poweredOn, poweredOn) := by
  intro poweredOn address length
  cases poweredOn <;>
    simp [memory_readbyterange, memory_writebyterange]

/-- C9: every overlay-draw host API call made while the guest system is
not powered on is a no-op: the canvas, painter generation, dock state
and draw-op list are unchanged and the render callback does not fire. -/
theorem overlay_refusal :
    ∀ (useDockedMode hasRenderCallback : Bool) (o : OverlayState)
      (x y red green blue alpha : Nat) (dx dy sx sy sw sh : Int)
      (path : String),
      gui_clearscreen false useDockedMode o = o ∧
      gui_render false useDockedMode hasRenderCallback o = o ∧
      gui_drawpixel false useDockedMode o x y red green blue alpha = o ∧
      gui_drawimage false useDockedMode o dx dy path sx sy sw sh = o := by
  intro useDockedMode hasRenderCallback o x y red green blue alpha dx dy sx sy sw sh path
  refine ⟨?_, ?_, ?_, ?_⟩ <;>
    simp [gui_clearscreen, gui_render, gui_drawpixel, gui_drawimage]

theorem dllErrorMsg_ne_empty (x : String) : "DLL error " ++ x ≠ "" := by
  intro hc
  have h1 := congrArg String.length hc
  simp [String.length_append] at h1
  exact absurd h1.1 (by decide)

theorem versionMismatchMsg_ne_empty (v : Nat) : versionMismatchMsg v ≠ "" := by
  intro hc
  have h1 := congrArg String.length hc
  simp [versionMismatchMsg, String.length_append] at h1
  exact absurd h1.1.1.1 (by decide)

theorem missingEntrypointsMsg_ne_empty : missingEntrypointsMsg ≠ "" := by
  decide

/-- C6: every failing `LoadPlugin` call — library open returned null,
interface-version mismatch, or `start`/`on_main_loop` not exported —
returns false with the last-error string set, and leaves the manager
state otherwise unchanged: the plugins list and the `loaded_plugins`
key-set are untouched (so no record exists through which a worker
thread could ever be spawned). -/
theorem loadPlugin_failure_atomic (s : LoadState) (lib : SharedLib)
    (path name : String)
    (hnew : s.loaded_plugins.contains path = false)
    (hfail : lib.openOk = false ∨
      (lib.openOk = true ∧
        ∃ v, lib.versionSymbol = some v ∧ v ≠ PLUGIN_INTERFACE_VERSION) ∨
      (lib.openOk = true ∧ lib.versionSymbol = some PLUGIN_INTERFACE_VERSION ∧
        (lib.hasStart && lib.hasMainLoop) = false)) :
    ∃ e : String, e ≠ "" ∧
      LoadPlugin s lib path name = some (false, { s with last_error := e }) := by
  have hnm : path ∉ s.loaded_plugins := by simpa using hnew
  rcases hfail with hopen | ⟨hopen, v, hv, hne⟩ | ⟨hopen, hv, hmiss⟩
  · refine ⟨"DLL error " ++ lib.dllError, dllErrorMsg_ne_empty _, ?_⟩
    unfold LoadPlugin
    simp [hnm, hopen]
  · refine ⟨versionMismatchMsg v, versionMismatchMsg_ne_empty v, ?_⟩
    unfold LoadPlugin
    simp [hnm, hopen, hv, hne]
  · refine ⟨missingEntrypointsMsg, missingEntrypointsMsg_ne_empty, ?_⟩
    unfold LoadPlugin
    simp [hnm, hopen, hv, hmiss]

/-- C6 witness: a library whose open fails, loaded into a fresh
manager. -/
theorem loadPlugin_failure_atomic_witness :
    (LoadState.mk [] [] "").loaded_plugins.contains "p" = false ∧
    ∃ e : String, e ≠ "" ∧
      LoadPlugin (LoadState.mk [] [] "")
        { openOk := false, dllError := "boom", versionSymbol := none,
          hasStart := false, hasMainLoop := false, hasOnClose := false }
        "p" "n" =
        some (false, { LoadState.mk [] [] "" with last_error := e }) :=
  ⟨by decide, loadPlugin_failure_atomic _ _ _ _ (by decide) (Or.inl rfl)⟩

/-- C10: loading a path that is already in the `loaded_plugins` key-set
returns true and leaves the whole manager state (plugins list, key-set,
last-error string) unchanged. -/
theorem loadPlugin_idempotent_on_loaded (s : LoadState) (lib : SharedLib)
    (path name : String) (h : s.loaded_plugins.contains path = true) :
    LoadPlugin s lib path name = some (true, s) := by
  have hm : path ∈ s.loaded_plugins := by simpa using h
  unfold LoadPlugin
  simp [hm]

/-- C10 witness: loading "p" while "p" is already in the key-set. -/
theorem loadPlugin_idempotent_on_loaded_witness :
    (LoadState.mk [] ["p"] "").loaded_plugins.contains "p" = true ∧
    LoadPlugin (LoadState.mk [] ["p"] "")
      { openOk := true, dllError := "", versionSymbol := some 0,
        hasStart := true, hasMainLoop := true, hasOnClose := true }
      "p" "n" = some (true, LoadState.mk [] ["p"] "") :=
  ⟨by decide, loadPlugin_idempotent_on_loaded _ _ _ _ (by decide)⟩

theorem bodyEffects_rfl (s : MgrState) (pid : Nat) : BodyEffects s s pid :=
  ⟨rfl, rfl, rfl, rfl, rfl, Or.inl rfl⟩

theorem bodyEffects_trans_of_temp_eq {s s1 s2 : MgrState} {pid : Nat}
    (h1 : BodyEffects s s1 pid) (ht : s1.temp = s.temp)
    (h2 : BodyEffects s1 s2 pid) : BodyEffects s s2 pid := by
  obtain ⟨m1, c1, l1, n1, a1, _⟩ := h1
  obtain ⟨m2, c2, l2, n2, a2, t2⟩ := h2
  refine ⟨m2.trans m1, c2.trans c1, l2.trans l1, n2.trans n1, a2.trans a1, ?_⟩
  rcases t2 with h | ⟨h, hmem⟩
  · exact Or.inl (h.trans ht)
  · exact Or.inr ⟨by rw [h, ht], by rwa [m1] at hmem⟩

theorem processScript_effects (s : MgrState) (pid : Nat) (o : Park) :
    BodyEffects s (processScript s pid o) pid ∧
    ((processScript s pid o).temp = s.temp ∨
      ∃ p2, (processScript s pid o).plugins.find?
          (fun q => q.pid == pid) = some p2 ∧ p2.hasStopped = true) := by
  unfold processScript
  cases hfind : s.plugins.find? (fun q => q.pid == pid) with
  | none => exact ⟨bodyEffects_rfl s pid, Or.inl rfl⟩
  | some p =>
    dsimp only
    have hpid : p.pid = pid := find?_pid _ _ _ hfind
    have hpmem : pid ∈ s.plugins.map (fun q => q.pid) :=
      List.mem_map.mpr ⟨p, List.mem_of_find?_eq_some hfind, hpid⟩
    have hp1pid : (workerPass p o).pid = pid := by
      rw [workerPass_pid, hpid]
    by_cases hg : ((workerPass p o).processedMainLoop &&
        !(s.loaded.contains (workerPass p o).path)) = true
    · have hpml : (workerPass p o).processedMainLoop = true :=
        (Bool.and_eq_true _ _).mp hg |>.1
      have hload : s.loaded.contains (workerPass p o).path = false := by
        have h2 := (Bool.and_eq_true _ _).mp hg |>.2
        simpa using h2
      rw [if_pos hg]
      constructor
      · refine ⟨map_pid_updateRec _ _ _ hp1pid, rfl, rfl, rfl, rfl, ?_⟩
        exact Or.inr ⟨by rw [hpml, hload], hpmem⟩
      · refine Or.inr ⟨{ workerPass p o with hasStopped := true }, ?_, rfl⟩
        rw [find?_updateRec s.plugins pid
          { workerPass p o with hasStopped := true } (by simpa using hp1pid),
          hfind]
        rfl
    · rw [if_neg hg]
      exact ⟨⟨map_pid_updateRec _ _ _ hp1pid, rfl, rfl, rfl, rfl,
        Or.inl rfl⟩, Or.inl rfl⟩

theorem vsyncInner_bodyEffects (pid : Nat) (oracle : List Park) :
    ∀ s : MgrState, BodyEffects s (vsyncInner pid s oracle) pid := by
  induction oracle with
  | nil => intro s; exact bodyEffects_rfl s pid
  | cons o rest ih =>
    intro s
    obtain ⟨hbe, htc⟩ := processScript_effects s pid o
    show BodyEffects s
      (match (processScript s pid o).plugins.find? (fun q => q.pid == pid) with
        | none => processScript s pid o
        | some p =>
          if p.encounteredVsync || p.hasStopped then processScript s pid o
          else vsyncInner pid (processScript s pid o) rest) pid
    cases hf : (processScript s pid o).plugins.find? (fun q => q.pid == pid) with
    | none => exact hbe
    | some p =>
      dsimp only
      by_cases hstop : (p.encounteredVsync || p.hasStopped) = true
      · rw [if_pos hstop]
        exact hbe
      · rw [if_neg hstop]
        have htemp : (processScript s pid o).temp = s.temp := by
          rcases htc with h | ⟨p2, hp2, hs2⟩
          · exact h
          · rw [hf] at hp2
            cases hp2
            exact absurd (by simp [hs2]) hstop
        exact bodyEffects_trans_of_temp_eq hbe htemp (ih (processScript s pid o))

theorem vsyncBody_bodyEffects (oracle : Nat → List Park)
    (st : MgrState) (pid : Nat) :
    BodyEffects st (vsyncBody oracle st pid) pid := by
  unfold vsyncBody
  cases hf : st.plugins.find? (fun q => q.pid == pid) with
  | none => exact bodyEffects_rfl st pid
  | some p =>
    dsimp only
    by_cases hev : p.encounteredVsync = true
    · rw [if_pos hev]
      have hpid : p.pid = pid := find?_pid _ _ _ hf
      have h1 : BodyEffects st
          { st with plugins := updateRec st.plugins pid { p with encounteredVsync := false } }
          pid :=
        ⟨map_pid_updateRec _ _ _ hpid, rfl, rfl, rfl, rfl, Or.inl rfl⟩
      exact bodyEffects_trans_of_temp_eq h1 rfl
        (vsyncInner_bodyEffects pid (oracle pid) _)
    · rw [if_neg hev]
      exact bodyEffects_rfl st pid

theorem paceBody_bodyEffects (oracle : Nat → Park)
    (st : MgrState) (pid : Nat) :
    BodyEffects st (paceBody oracle st pid) pid := by
  unfold paceBody
  cases hf : st.plugins.find? (fun q => q.pid == pid) with
  | none => exact bodyEffects_rfl st pid
  | some p =>
    dsimp only
    by_cases hpm : p.processedMainLoop = true
    · rw [if_pos hpm]
      have hpid : p.pid = pid := find?_pid _ _ _ hf
      have h1 : BodyEffects st
          { st with plugins := updateRec st.plugins pid { p with processedMainLoop := false } }
          pid :=
        ⟨map_pid_updateRec _ _ _ hpid, rfl, rfl, rfl, rfl, Or.inl rfl⟩
      exact bodyEffects_trans_of_temp_eq h1 rfl
        (processScript_effects _ pid (oracle pid)).1
    · rw [if_neg hpm]
      exact bodyEffects_rfl st pid

theorem foldl_bodyEffects (body : MgrState → Nat → MgrState)
    (hb : ∀ s pid, BodyEffects s (body s pid) pid) :
    ∀ (rest : List Nat) (s : MgrState),
      rest.Nodup → (∀ e ∈ s.temp, e.pid ∉ rest) →
      (rest.foldl body s).plugins.map (fun p => p.pid) =
          s.plugins.map (fun p => p.pid) ∧
      (rest.foldl body s).closeLog = s.closeLog ∧
      (rest.foldl body s).loaded = s.loaded ∧
      (rest.foldl body s).nextId = s.nextId ∧
      (rest.foldl body s).active = s.active ∧
      ((s.temp.map (fun e => e.pid)).Nodup →
        ((rest.foldl body s).temp.map (fun e => e.pid)).Nodup) ∧
      (∀ e ∈ (rest.foldl body s).temp,
        e ∈ s.temp ∨ (e.observedMainLoop = true ∧ e.pathWasLoaded = false ∧
          e.pid ∈ s.plugins.map (fun p => p.pid))) := by
  intro rest
  induction rest with
  | nil =>
    intro s _ _
    exact ⟨rfl, rfl, rfl, rfl, rfl, fun h => h, fun e he => Or.inl he⟩
  | cons pid tl ih =>
    intro s hnd hdisj
    obtain ⟨hmap, hlog, hload, hnext, hact, htemp⟩ := hb s pid
    have hnd2 : tl.Nodup := (List.nodup_cons.mp hnd).2
    have hpidtl : pid ∉ tl := (List.nodup_cons.mp hnd).1
    have hdisj2 : ∀ e ∈ (body s pid).temp, e.pid ∉ tl := by
      intro e he
      rcases htemp with h | ⟨h, _⟩
      · rw [h] at he
        exact fun hc => hdisj e he (List.mem_cons_of_mem _ hc)
      · rw [h] at he
        rcases List.mem_append.mp he with he1 | he2
        · exact fun hc => hdisj e he1 (List.mem_cons_of_mem _ hc)
        · have he3 : e = ⟨pid, true, false⟩ := by simpa using he2
          rw [he3]
          exact hpidtl
    have IH := ih (body s pid) hnd2 hdisj2
    have hfold : (pid :: tl).foldl body s = tl.foldl body (body s pid) := rfl
    rw [hfold]
    refine ⟨IH.1.trans hmap, IH.2.1.trans hlog, IH.2.2.1.trans hload,
      IH.2.2.2.1.trans hnext, IH.2.2.2.2.1.trans hact, ?_, ?_⟩
    · intro h0
      apply IH.2.2.2.2.2.1
      rcases htemp with h | ⟨h, _⟩
      · rwa [h]
      · rw [h]
        simp only [List.map_append, List.map_cons, List.map_nil]
        refine List.Nodup.append h0 (List.nodup_singleton _) ?_
        intro x hx1 hx2
        rcases List.mem_map.mp hx1 with ⟨e, he, hex⟩
        have hx3 : x = pid := by simpa using hx2
        apply hdisj e he
        rw [hex, hx3]
        exact List.mem_cons_self _ _
    · intro e he
      rcases IH.2.2.2.2.2.2 e he with h1 | ⟨ho, hw, hm⟩
      · rcases htemp with h | ⟨h, hmem⟩
        · rw [h] at h1
          exact Or.inl h1
        · rw [h] at h1
          rcases List.mem_append.mp h1 with he1 | he2
          · exact Or.inl he1
          · have he3 : e = ⟨pid, true, false⟩ := by simpa using he2
            exact Or.inr ⟨by rw [he3], by rw [he3], by rw [he3]; exact hmem⟩
      · rw [hmap] at hm
        exact Or.inr ⟨ho, hw, hm⟩

theorem inv_sweep (s : MgrState) (body : MgrState → Nat → MgrState)
    (hb : ∀ st pid, BodyEffects st (body st pid) pid)
    (d : SchedDriver) (hInv : Inv s) :
    Inv (HandlePluginClosings
      ((s.plugins.map (fun p => p.pid)).foldl body s) d) := by
  obtain ⟨hnP, htE, hnL, hcL, hfP, hfL, hdLP⟩ := hInv
  have hF := foldl_bodyEffects body hb (s.plugins.map (fun p => p.pid)) s hnP
    (by rw [htE]; intro e he; cases he)
  obtain ⟨hmap, hlog, hload, hnext, hact, hndT, hTmem⟩ := hF
  set s1 := (s.plugins.map (fun p => p.pid)).foldl body s with hs1
  have hT1 : ∀ e ∈ s1.temp, e.observedMainLoop = true ∧
      e.pathWasLoaded = false ∧ e.pid ∈ s.plugins.map (fun p => p.pid) := by
    intro e he
    rcases hTmem e he with h | h
    · rw [htE] at h
      cases h
    · exact h
  have hndT1 : (s1.temp.map (fun e => e.pid)).Nodup := by
    apply hndT
    rw [htE]
    exact List.nodup_nil
  have hmapL : (HandlePluginClosings s1 d).closeLog.map (fun e => e.pid) =
      s.closeLog.map (fun e => e.pid) ++ s1.temp.map (fun e => e.pid) := by
    show ((s1.closeLog ++ s1.temp.map
      (fun e => CloseEvent.mk e.pid d e.observedMainLoop e.pathWasLoaded)).map
        (fun e => e.pid)) = _
    rw [List.map_append, List.map_map, hlog]
    rfl
  have hsub : List.Sublist (HandlePluginClosings s1 d).plugins s1.plugins :=
    List.filter_sublist _
  have hsubm := hsub.map (fun p => p.pid)
  refine ⟨?_, rfl, ?_, ?_, ?_, ?_, ?_⟩
  · exact (hmap ▸ hnP : (s1.plugins.map (fun p => p.pid)).Nodup).sublist hsubm
  · rw [hmapL]
    refine List.Nodup.append hnL hndT1 ?_
    intro x hx1 hx2
    rcases List.mem_map.mp hx2 with ⟨e, he, hex⟩
    apply hdLP x hx1
    rw [← hex]
    exact (hT1 e he).2.2
  · intro e he
    rcases List.mem_append.mp he with h1 | h2
    · rw [hlog] at h1
      exact hcL e h1
    · rcases List.mem_map.mp h2 with ⟨e0, he0, hee⟩
      have h3 := hT1 e0 he0
      rw [← hee]
      exact ⟨h3.1, h3.2.1⟩
  · intro x hx
    have hx1 : x ∈ s1.plugins.map (fun p => p.pid) := hsubm.mem hx
    rw [hmap] at hx1
    have := hfP x hx1
    show x < s1.nextId
    rwa [hnext]
  · intro x hx
    rw [hmapL] at hx
    show x < s1.nextId
    rw [hnext]
    rcases List.mem_append.mp hx with h1 | h2
    · exact hfL x h1
    · rcases List.mem_map.mp h2 with ⟨e, he, hex⟩
      apply hfP
      rw [← hex]
      exact (hT1 e he).2.2
  · intro x hx hxp
    rcases List.mem_map.mp hxp with ⟨p, hpmem, hpx⟩
    have hpfacts := List.mem_filter.mp hpmem
    have hpno : ∀ e ∈ s1.temp, ¬(e.pid = p.pid) := by
      intro e he hc
      have h4 := hpfacts.2
      simp only [Bool.not_eq_true'] at h4
      have : s1.temp.any (fun e => e.pid == p.pid) = true :=
        List.any_eq_true.mpr ⟨e, he, by simpa using hc⟩
      rw [h4] at this
      cases this
    rw [hmapL] at hx
    rcases List.mem_append.mp hx with h1 | h2
    · apply hdLP x h1
      rw [← hmap]
      exact List.mem_map.mpr ⟨p, hpfacts.1, hpx⟩
    · rcases List.mem_map.mp h2 with ⟨e, he, hex⟩
      exact hpno e he (by rw [hex, hpx])

theorem inv_load (s : MgrState) (lib : SharedLib) (path name : String)
    (hInv : Inv s) : Inv (loadPluginT s lib path name) := by
  obtain ⟨hnP, htE, hnL, hcL, hfP, hfL, hdLP⟩ := hInv
  unfold loadPluginT
  split
  · exact ⟨hnP, htE, hnL, hcL, hfP, hfL, hdLP⟩
  · split
    · exact ⟨hnP, htE, hnL, hcL, hfP, hfL, hdLP⟩
    · split
      · exact ⟨hnP, htE, hnL, hcL, hfP, hfL, hdLP⟩
      · split
        · exact ⟨hnP, htE, hnL, hcL, hfP, hfL, hdLP⟩
        · split
          · exact ⟨hnP, htE, hnL, hcL, hfP, hfL, hdLP⟩
          · refine ⟨?_, htE, hnL, hcL, ?_, ?_, ?_⟩
            · rw [List.map_append]
              refine List.Nodup.append hnP (by simp) ?_
              intro x hx1 hx2
              have hx3 : x = s.nextId := by simpa using hx2
              have hx4 := hfP x hx1
              omega
            · intro x hx
              show x < s.nextId + 1
              rw [List.map_append] at hx
              rcases List.mem_append.mp hx with h | h
              · have := hfP x h
                omega
              · have hx3 : x = s.nextId := by simpa using h
                omega
            · intro x hx
              show x < s.nextId + 1
              have := hfL x hx
              omega
            · intro x hx hxp
              rw [List.map_append] at hxp
              rcases List.mem_append.mp hxp with h | h
              · exact hdLP x hx h
              · have hx3 : x = s.nextId := by simpa using h
                have := hfL x hx
                omega

theorem inv_remove (s : MgrState) (path : String) (hInv : Inv s) :
    Inv (removePluginT s path) := by
  obtain ⟨hnP, htE, hnL, hcL, hfP, hfL, hdLP⟩ := hInv
  unfold removePluginT
  split
  · exact ⟨hnP, htE, hnL, hcL, hfP, hfL, hdLP⟩
  · exact ⟨hnP, htE, hnL, hcL, hfP, hfL, hdLP⟩

theorem inv_setActive (s : MgrState) (b : Bool) (hInv : Inv s) :
    Inv (setActiveT s b) := by
  obtain ⟨hnP, htE, hnL, hcL, hfP, hfL, hdLP⟩ := hInv
  exact ⟨hnP, htE, hnL, hcL, hfP, hfL, hdLP⟩

theorem inv_vsyncSweep (s : MgrState) (oracle : Nat → List Park)
    (hInv : Inv s) : Inv (ProcessScriptFromVsync s oracle) := by
  unfold ProcessScriptFromVsync
  split
  · exact inv_sweep s (vsyncBody oracle) (vsyncBody_bodyEffects oracle)
      SchedDriver.vsync hInv
  · exact hInv

theorem inv_paceSweep (s : MgrState) (oracle : Nat → Park)
    (hInv : Inv s) : Inv (ProcessScriptFromMainLoop s oracle) := by
  unfold ProcessScriptFromMainLoop
  split
  · exact inv_sweep s (paceBody oracle) (paceBody_bodyEffects oracle)
      SchedDriver.pacing hInv
  · exact hInv

theorem inv_step (s : MgrState) (c : Cmd) (hInv : Inv s) :
    Inv (step s c) := by
  cases c with
  | load lib path name => exact inv_load s lib path name hInv
  | remove path => exact inv_remove s path hInv
  | setActive b => exact inv_setActive s b hInv
  | vsyncSweep oracle => exact inv_vsyncSweep s oracle hInv
  | paceSweep oracle => exact inv_paceSweep s oracle hInv

theorem run_inv_aux : ∀ (cs : List Cmd) (s : MgrState),
    Inv s → Inv (run s cs) := by
  intro cs
  induction cs with
  | nil => intro s h; exact h
  | cons c tl ih => intro s h; exact ih (step s c) (inv_step s c h)

theorem inv_initState : Inv initState :=
  ⟨List.nodup_nil, rfl, List.nodup_nil,
    fun e he => absurd he (List.not_mem_nil e),
    fun x hx => absurd hx (List.not_mem_nil x),
    fun x hx => absurd hx (List.not_mem_nil x),
    fun x hx => absurd hx (List.not_mem_nil x)⟩

/-- C3: in every execution of the manager model (any sequence of loads,
removes, activations and scheduler sweeps from a fresh manager), each
plugin record's `on_close` is invoked at most once (no record id repeats
in the close log), every close was queued when the scheduler observed
`processedMainLoop` true with the record's path absent from the
`loaded_plugins` key-set, and every close was performed by one of the
two scheduler entry points (vsync driver or pacing driver) — never by a
plugin's worker, which has no path to `HandlePluginClosings` in the
model. -/
theorem onClose_at_most_once :
    ∀ cs : List Cmd,
      ((run initState cs).closeLog.map (fun e => e.pid)).Nodup ∧
      ∀ e ∈ (run initState cs).closeLog,
        e.observedMainLoop = true ∧ e.pathWasLoaded = false ∧
        (e.driver = SchedDriver.vsync ∨ e.driver = SchedDriver.pacing) := by
  intro cs
  obtain ⟨_, _, hnL, hcL, _, _, _⟩ := run_inv_aux cs initState inv_initState
  refine ⟨hnL, ?_⟩
  intro e he
  obtain ⟨h1, h2⟩ := hcL e he
  refine ⟨h1, h2, ?_⟩
  cases hdr : e.driver with
  | vsync => exact Or.inl rfl
  | pacing => exact Or.inr rfl

/-- C3 witness: a concrete trace that loads a plugin, activates the
manager, removes the plugin's path and runs a pacing sweep (which
performs the teardown). -/
theorem onClose_at_most_once_witness :
    ((run initState
        [Cmd.load (SharedLib.mk true "" (some 0) true true true) "p" "n",
         Cmd.setActive true, Cmd.remove "p",
         Cmd.paceSweep (fun _ => Park.mainLoopDone)]).closeLog.map
      (fun e => e.pid)).Nodup ∧
    ∀ e ∈ (run initState
        [Cmd.load (SharedLib.mk true "" (some 0) true true true) "p" "n",
         Cmd.setActive true, Cmd.remove "p",
         Cmd.paceSweep (fun _ => Park.mainLoopDone)]).closeLog,
      e.observedMainLoop = true ∧ e.pathWasLoaded = false ∧
      (e.driver = SchedDriver.vsync ∨ e.driver = SchedDriver.pacing) :=
  onClose_at_most_once
    [Cmd.load (SharedLib.mk true "" (some 0) true true true) "p" "n",
     Cmd.setActive true, Cmd.remove "p",
     Cmd.paceSweep (fun _ => Park.mainLoopDone)]

end YuzuPlugin
